import Mathlib

/-!
Shallow embedding of `src/src/components/thunder-hole-tracker.tsx`.

Conventions of the embedding:
* JavaScript timestamps (`Date.getTime()`, `Date.now()`) are modelled as `Nat`
  milliseconds on a local-time axis (the NOAA request uses `time_zone=lst_ldt`,
  so all instants in the component are local).  `Date.setHours(h, m, 0, 0)`
  on a date sharing that axis is `dayStart t + h * msPerHour + m * 60000`.
* `new Date(s).getTime()` applied to an upstream timestamp string is
  abstracted by carrying the already-parsed instant in the raw record
  (`Prediction.t : Nat`); string-to-date parsing is a JS builtin, not code of
  this repository.
* Locale-formatted display strings (`toLocaleTimeString`, `toLocaleDateString`,
  `parseFloat(v).toFixed(1)`) and the fixed location constants are
  presentational only; no claim depends on them and they are omitted from the
  embedded records.
* React state (`tideData`, `loading`, `error`) is modelled as an explicit
  `AppState`; one run of the async `fetchNOAATideData` is modelled as a state
  transformer applied to the prior state and the outcome of the network call.
-/

namespace ThunderHole

/-- The raw high/low marker of an upstream record, `type: "H" | "L"` in the
source. -/
inductive PredKind where
  | H
  | L
deriving DecidableEq, Repr

/-- A raw upstream prediction record, `type Prediction = { t; v; type }`;
`t` is the parsed instant of the timestamp string (ms), `v` the raw height
string. -/
structure Prediction where
  t : Nat
  v : String
  type : PredKind
deriving DecidableEq, Repr

/-- A normalized tide event, `type Tide` of the source restricted to the
fields the logic reads: `timestamp` (ms) and `type` (the string `"High"` or
`"Low"` written by the adapter).  The locale-formatted `time`, `date` and
`height` display fields are omitted (presentational only). -/
structure Tide where
  timestamp : Nat
  type : String
deriving DecidableEq, Repr

/-- Milliseconds per hour, `60 * 60 * 1000`. -/
def msPerHour : Nat := 60 * 60 * 1000

/-- Milliseconds per local calendar day. -/
def msPerDay : Nat := 24 * msPerHour

/-- Local midnight of the day containing `t`: what `new Date(t)` followed by
`setHours(0, 0, 0, 0)` yields on the local-time axis. -/
def dayStart (t : Nat) : Nat := t - t % msPerDay

/-- `sunrise` of `calculateThunderHoleTime`: `new Date(now)` with
`setHours(6, 0, 0, 0)` — 06:00 on the calendar day of the given instant. -/
def sunriseOf (t : Nat) : Nat := dayStart t + 6 * msPerHour

/-- `sunset` of `calculateThunderHoleTime`: `new Date(now)` with
`setHours(19, 30, 0, 0)` — 19:30 on the calendar day of the given instant. -/
def sunsetOf (t : Nat) : Nat := dayStart t + 19 * msPerHour + 30 * 60 * 1000

/-- Lines 123-128 of the source: the candidate viewing time of a tide event —
`occursAt + 2 hours` when the type string is `"Low"`, otherwise
`occursAt + 3 hours`. -/
def thunderCandidate (tide : Tide) : Nat :=
  if tide.type = "Low" then tide.timestamp + 2 * 60 * 60 * 1000
  else tide.timestamp + 3 * 60 * 60 * 1000

/-- The record returned from inside the loop of `calculateThunderHoleTime`
(locale display strings omitted): candidate timestamp, source tide, and the
elapsed-hours delta `(thunderHoleTime - now) / (1000 * 60 * 60)`. -/
structure OptimalTime where
  timestamp : Nat
  relatedTide : Tide
  hoursFromNow : ℚ
deriving DecidableEq, Repr

/-- Builds the result record of `calculateThunderHoleTime` for a qualifying
tide. -/
def mkOptimalTime (now : Nat) (tide : Tide) : OptimalTime :=
  { timestamp := thunderCandidate tide
    relatedTide := tide
    hoursFromNow := ((thunderCandidate tide : ℚ) - (now : ℚ)) / ((1000 : ℚ) * 60 * 60) }

/-- Lines 107-143 of the source, `calculateThunderHoleTime`.  The source reads
`now` internally via `new Date()`; here it is an explicit parameter.  The scan
is the `for (let tide of tides)` loop: the first tide whose candidate is
strictly after `now` and inside `[sunrise, sunset]` (both computed from the
calendar day of `now`) is returned; if the loop finishes, `null` — here
`none`. -/
def calculateThunderHoleTime (now : Nat) : List Tide → Option OptimalTime
  | [] => none
  | tide :: rest =>
    let thunderHoleTime := thunderCandidate tide
    if now < thunderHoleTime ∧ sunriseOf now ≤ thunderHoleTime ∧ thunderHoleTime ≤ sunsetOf now then
      some (mkOptimalTime now tide)
    else
      calculateThunderHoleTime now rest

/-- Lines 94-105 of the source, `getCurrentTideDirection`.  Future tides are
those with `timestamp > now`; if fewer than two exist the result is
`"Unknown"`.  `prevTide` is `tides.filter(t => t.timestamp < now).slice(-1)[0]`,
i.e. the last past tide or `undefined`; `undefined` yields `"Unknown"`.
Otherwise the result is read off the type of `futureTides[0]`. -/
def getCurrentTideDirection (tides : List Tide) (now : Nat) : String :=
  let futureTides := tides.filter fun tide => now < tide.timestamp
  if futureTides.length < 2 then "Unknown"
  else
    match (tides.filter fun tide => tide.timestamp < now).getLast? with
    | none => "Unknown"
    | some _ =>
      match futureTides.head? with
      | none => "Unknown"
      | some nextTide => if nextTide.type = "High" then "Rising" else "Falling"

/-- Lines 63-69 of the source: one step of
`data.predictions.map(prediction => ({...}))` — the normalization of a single
raw record (display-string fields omitted). -/
def tideOfPrediction (p : Prediction) : Tide :=
  { timestamp := p.t
    type := if p.type = PredKind.H then "High" else "Low" }

/-- Lines 63-69 of the source: `const tides = data.predictions.map(...)`. -/
def tidesOfPredictions (preds : List Prediction) : List Tide :=
  preds.map tideOfPrediction

/-- Line 79 of the source:
`tides.find(tide => tide.timestamp > now) || tides[0]`.  `find` returns the
first element in list order satisfying the predicate; `tides[0]` is
`undefined` (`none`) on an empty list. -/
def nextTideOf (tides : List Tide) (now : Nat) : Option Tide :=
  match tides.find? fun tide => now < tide.timestamp with
  | some tide => some tide
  | none => tides.head?

/-- The slice of `TideData` the logic constructs (location name and
coordinates — fixed presentational constants, the latter floating point — are
omitted).  `nextTide` is an `Option` because the source expression is
`undefined` on an empty prediction list despite its TS type. -/
structure TideData where
  tides : List Tide
  nextTide : Option Tide
  currentTide : String
deriving DecidableEq, Repr

/-- The component state cells touched by `fetchNOAATideData`:
`tideData`, `loading`, `error`. -/
structure AppState where
  tideData : Option TideData
  loading : Bool
  error : Option String
deriving DecidableEq, Repr

/-- The outcome of the network round-trip inside `fetchNOAATideData`:
a non-success HTTP status (line 53), a structured error payload (line 59),
any other exception thrown while fetching or parsing (carrying its message),
or a successfully parsed prediction list. -/
inductive FetchOutcome where
  | httpError (status : Nat)
  | apiError (message : String)
  | thrown (message : String)
  | ok (predictions : List Prediction)
deriving DecidableEq, Repr

/-- Lines 36-92 of the source, `fetchNOAATideData`, as the net effect of one
complete run on the three state cells, given the prior state, the outcome of
the network call, and `Date.now()` (line 72).  `setLoading(true)` and
`setError(null)` at entry are overwritten by the `catch`/`finally` clauses
before the run ends, so only the final value of each cell appears. -/
def fetchNOAATideData (s : AppState) (outcome : FetchOutcome) (now : Nat) : AppState :=
  match outcome with
  | FetchOutcome.ok predictions =>
    let tides := tidesOfPredictions predictions
    { tideData := some
        { tides := tides
          nextTide := nextTideOf tides now
          currentTide := getCurrentTideDirection tides now }
      loading := false
      error := none }
  | FetchOutcome.httpError status =>
    { tideData := s.tideData
      loading := false
      error := some ("Failed to fetch tide data: NOAA API error: " ++ toString status) }
  | FetchOutcome.apiError message =>
    { tideData := s.tideData
      loading := false
      error := some ("Failed to fetch tide data: " ++ message) }
  | FetchOutcome.thrown message =>
    { tideData := s.tideData
      loading := false
      error := some ("Failed to fetch tide data: " ++ message) }

/-- Decidable form of the acceptance test on line 131 of the source, applied
to the candidate of a tide: strictly after `now` and inside the daylight
window of the calendar day of `now`. -/
def qualifies (now : Nat) (tide : Tide) : Bool :=
  decide (now < thunderCandidate tide ∧
    sunriseOf now ≤ thunderCandidate tide ∧ thunderCandidate tide ≤ sunsetOf now)

/-- First-match specification of the calculator: the first tide in sequence
order whose candidate qualifies, mapped to the result record. -/
def calcFirstMatch (now : Nat) (tides : List Tide) : Option OptimalTime :=
  (tides.find? (qualifies now)).map (mkOptimalTime now)

/-- Modelled from the spec words of claim C2 (the daylight window is said to
be evaluated on the own calendar date of the candidate, which no code under
`src/` does): acceptance test with `[sunrise, sunset]` computed from the
calendar day of the candidate itself. -/
def qualifiesOwnDate (now : Nat) (tide : Tide) : Bool :=
  decide (now < thunderCandidate tide ∧
    sunriseOf (thunderCandidate tide) ≤ thunderCandidate tide ∧
    thunderCandidate tide ≤ sunsetOf (thunderCandidate tide))

/-- Modelled from the spec words of claim C2: first-match calculator with the
daylight window evaluated on the own calendar date of the candidate. -/
def calcFirstMatchOwnDate (now : Nat) (tides : List Tide) : Option OptimalTime :=
  (tides.find? (qualifiesOwnDate now)).map (mkOptimalTime now)

/-- Sortedness of a tide list: timestamps ascending in list order. -/
abbrev TidesSorted (tides : List Tide) : Prop :=
  List.Pairwise (fun a b => a.timestamp ≤ b.timestamp) tides

/-- A concrete local day used by the concrete-input theorems: day number
20000, whose local midnight is `20000 * msPerDay`. -/
def day0 : Nat := 20000 * msPerDay

/-- Concrete input of claim C6: `now` is 07:00 on `day0`. -/
def c6now : Nat := day0 + 7 * msPerHour

/-- Concrete input of claim C6: the Low tide at 08:00 on `day0`. -/
def c6low : Tide := { timestamp := day0 + 8 * msPerHour, type := "Low" }

/-- Concrete input of claim C6: the High tide at 14:00 on `day0`. -/
def c6high : Tide := { timestamp := day0 + 14 * msPerHour, type := "High" }

/-- Concrete input refuting claim C2 as stated: `now` is 18:00 on `day0`. -/
def c2now : Nat := day0 + 18 * msPerHour

/-- Concrete input refuting claim C2 as stated: a Low tide at 08:00 on the
day after `day0`; its candidate (10:00 next day) is inside the daylight
window of its own calendar date but outside the window of the day of
`c2now`. -/
def c2low : Tide := { timestamp := day0 + msPerDay + 8 * msPerHour, type := "Low" }

/-- Concrete input refuting claim C1 as stated: one past and exactly one
future event around `now = 2000`. -/
def c1tides : List Tide :=
  [{ timestamp := 1000, type := "Low" }, { timestamp := 3000, type := "High" }]

/-- Concrete input refuting claim C3 as stated: two raw records arriving in
descending timestamp order. -/
def c3preds : List Prediction :=
  [{ t := 2000, v := "5.0", type := PredKind.H },
   { t := 1000, v := "1.0", type := PredKind.L }]

/-- Concrete input refuting claim C10 as stated: an unsorted tide list whose
first-in-order future event is not the earliest future event. -/
def c10tides : List Tide :=
  [{ timestamp := 5000, type := "High" }, { timestamp := 3000, type := "Low" }]

/-- Concrete prior state for the witness of claim C9: a dataset is already
displayed. -/
def c9dataset : TideData :=
  { tides := [{ timestamp := 1000, type := "Low" }]
    nextTide := some { timestamp := 1000, type := "Low" }
    currentTide := "Unknown" }

/-- Concrete prior state for the witness of claim C9. -/
def c9state : AppState :=
  { tideData := some c9dataset, loading := false, error := none }

/-! ## Helper lemmas -/

/-- The head of a filtered list is the first element satisfying the
predicate. -/
theorem head?_filter_eq_find? (p : Tide → Bool) (l : List Tide) :
    (l.filter p).head? = l.find? p := by
  induction l with
  | nil => rfl
  | cons x xs ih =>
    cases hp : p x with
    | true => simp [List.filter_cons, hp]
    | false => simp [List.filter_cons, hp, ih]

/-- On a list sorted by timestamp, `find?` returns an element whose timestamp
is minimal among all elements satisfying the predicate. -/
theorem find?_min_of_sorted {l : List Tide} {p : Tide → Bool} {a : Tide}
    (hs : TidesSorted l) (hf : l.find? p = some a) :
    ∀ b ∈ l, p b = true → a.timestamp ≤ b.timestamp := by
  induction l with
  | nil => simp at hf
  | cons x xs ih =>
    rcases List.pairwise_cons.mp hs with ⟨hx, hxs⟩
    cases hp : p x with
    | true =>
      rw [List.find?_cons_of_pos _ hp] at hf
      injection hf with hf
      subst hf
      intro b hb _
      rcases List.mem_cons.mp hb with rfl | hb
      · exact Nat.le_refl _
      · exact hx b hb
    | false =>
      rw [List.find?_cons_of_neg _ (by simp [hp])] at hf
      intro b hb hpb
      rcases List.mem_cons.mp hb with rfl | hb
      · rw [hp] at hpb
        cases hpb
      · exact ih hxs hf b hb hpb

/-- If no tide in the list passes the acceptance test, the scan of
`calculateThunderHoleTime` falls through to `null`. -/
theorem calculateThunderHoleTime_eq_none_of_none_qualify (now : Nat) :
    ∀ tides : List Tide,
      (∀ t ∈ tides, ¬ (now < thunderCandidate t ∧
        sunriseOf now ≤ thunderCandidate t ∧ thunderCandidate t ≤ sunsetOf now)) →
      calculateThunderHoleTime now tides = none := by
  intro tides
  induction tides with
  | nil => intro _; rfl
  | cons x xs ih =>
    intro h
    have hx := h x (List.mem_cons_self x xs)
    simp only [calculateThunderHoleTime, if_neg hx]
    exact ih fun t ht => h t (List.mem_cons_of_mem x ht)


/-! ## Claim theorems -/

/-- Claim C1 (amended): for every chronologically ordered tide event sequence
with at least one event strictly before `now` and at least TWO events strictly
after `now` (the source requires `futureTides.length >= 2`, not one), the
direction classifier returns `"Rising"` when the nearest future event has kind
High and `"Falling"` when it has kind Low, and never `"Unknown"`; the head of
the future filter is indeed the nearest future event (minimal timestamp among
future events). -/
theorem getCurrentTideDirection_of_nearest_future
    (tides : List Tide) (now : Nat) (nf : Tide)
    (hsort : TidesSorted tides)
    (hpast : ∃ t ∈ tides, t.timestamp < now)
    (hfut : 2 ≤ (tides.filter fun t => decide (now < t.timestamp)).length)
    (hnf : (tides.filter fun t => decide (now < t.timestamp)).head? = some nf) :
    (getCurrentTideDirection tides now = "Rising" ∨
     getCurrentTideDirection tides now = "Falling") ∧
    (nf.type = "High" → getCurrentTideDirection tides now = "Rising") ∧
    (nf.type = "Low" → getCurrentTideDirection tides now = "Falling") ∧
    (∀ e ∈ tides, now < e.timestamp → nf.timestamp ≤ e.timestamp) := by
  have hdir : getCurrentTideDirection tides now =
      if nf.type = "High" then "Rising" else "Falling" := by
    obtain ⟨t, ht, htlt⟩ := hpast
    have hmem : t ∈ tides.filter fun x => decide (x.timestamp < now) := by
      simp [List.mem_filter, ht, htlt]
    obtain ⟨y, hy⟩ :
        ∃ y, (tides.filter fun x => decide (x.timestamp < now)).getLast? = some y := by
      cases hgl : (tides.filter fun x => decide (x.timestamp < now)).getLast? with
      | some y => exact ⟨y, rfl⟩
      | none =>
        rw [List.getLast?_eq_none_iff] at hgl
        rw [hgl] at hmem
        cases hmem
    simp only [getCurrentTideDirection]
    rw [if_neg (by omega), hy, hnf]
  refine ⟨?_, ?_, ?_, ?_⟩
  · by_cases hH : nf.type = "High"
    · left; rw [hdir, if_pos hH]
    · right; rw [hdir, if_neg hH]
  · intro h; rw [hdir, if_pos h]
  · intro h
    rw [hdir, h]
    rfl
  · have hfind : tides.find? (fun t => decide (now < t.timestamp)) = some nf := by
      rw [← head?_filter_eq_find?]
      exact hnf
    intro e he hlt
    exact find?_min_of_sorted hsort hfind e he (decide_eq_true hlt)

/-- Witness for the amended claim C1 at a concrete input: one past event and
two future events whose nearest is a High, classified `"Rising"`. -/
theorem getCurrentTideDirection_of_nearest_future_witness :
    (getCurrentTideDirection
      [{ timestamp := 1000, type := "Low" }, { timestamp := 3000, type := "High" },
       { timestamp := 5000, type := "Low" }] 2000 = "Rising" ∨
     getCurrentTideDirection
      [{ timestamp := 1000, type := "Low" }, { timestamp := 3000, type := "High" },
       { timestamp := 5000, type := "Low" }] 2000 = "Falling") ∧
    (("High" : String) = "High" → getCurrentTideDirection
      [{ timestamp := 1000, type := "Low" }, { timestamp := 3000, type := "High" },
       { timestamp := 5000, type := "Low" }] 2000 = "Rising") ∧
    (("High" : String) = "Low" → getCurrentTideDirection
      [{ timestamp := 1000, type := "Low" }, { timestamp := 3000, type := "High" },
       { timestamp := 5000, type := "Low" }] 2000 = "Falling") ∧
    (∀ e ∈ ([{ timestamp := 1000, type := "Low" }, { timestamp := 3000, type := "High" },
       { timestamp := 5000, type := "Low" }] : List Tide),
      2000 < e.timestamp → (3000 : Nat) ≤ e.timestamp) :=
  getCurrentTideDirection_of_nearest_future
    [{ timestamp := 1000, type := "Low" }, { timestamp := 3000, type := "High" },
     { timestamp := 5000, type := "Low" }] 2000 { timestamp := 3000, type := "High" }
    (by decide) (by decide) (by decide) (by decide)

/-- Counterexample to claim C1 as stated: a chronologically ordered sequence
with exactly one past event and exactly one future event (a High at 3000,
`now = 2000`); the claim requires `"Rising"`, but the source requires two
future events and returns `"Unknown"`. -/
theorem c1_one_future_gives_unknown :
    TidesSorted c1tides ∧
    (c1tides.filter fun t => decide (t.timestamp < 2000)).length = 1 ∧
    (c1tides.filter fun t => decide (2000 < t.timestamp)) =
      [{ timestamp := 3000, type := "High" }] ∧
    getCurrentTideDirection c1tides 2000 = "Unknown" := by decide

/-- Claim C2 (amended): for every event sequence and every `now`, the
calculator returns the candidate of the first event in sequence order whose
candidate time is strictly after `now` and within the daylight window
[06:00, 19:30] evaluated on the calendar date of `now` (not of the candidate);
this is a first-match scan, so earlier failing candidates are skipped and
proximity to `now` and event kind play no role. -/
theorem calculateThunderHoleTime_eq_firstMatch (now : Nat) (tides : List Tide) :
    calculateThunderHoleTime now tides = calcFirstMatch now tides := by
  induction tides with
  | nil => rfl
  | cons x xs ih =>
    by_cases h : now < thunderCandidate x ∧
        sunriseOf now ≤ thunderCandidate x ∧ thunderCandidate x ≤ sunsetOf now
    · have hq : qualifies now x = true := decide_eq_true h
      simp only [calculateThunderHoleTime, if_pos h, calcFirstMatch,
        List.find?_cons_of_pos _ hq, Option.map_some']
    · have hq : ¬ qualifies now x = true := by
        intro hc
        exact h (of_decide_eq_true hc)
      simp only [calculateThunderHoleTime, if_neg h, calcFirstMatch,
        List.find?_cons_of_neg _ hq]
      exact ih

/-- Counterexample to claim C2 as stated: with `now` at 18:00 and a Low tide
at 08:00 the next day, the candidate (10:00 the next day) is inside the
daylight window of its own calendar date, so the claimed policy returns it;
the source compares against the window of the day of `now` and returns
`none`. -/
theorem c2_window_on_own_date_fails :
    calculateThunderHoleTime c2now [c2low] = none ∧
    calcFirstMatchOwnDate c2now [c2low] = some (mkOptimalTime c2now c2low) := by
  exact ⟨by decide, rfl⟩

/-- Claim C3 (amended): the fetch/normalize adapter preserves the arrival
order of the raw records — the timestamps of the produced events are exactly
the parsed timestamps of the records, in the same order — so the produced
sequence is ascending if and only if the raw records already arrive ascending;
the adapter itself does not sort. -/
theorem tidesOfPredictions_preserves_order (preds : List Prediction) :
    (tidesOfPredictions preds).map Tide.timestamp = preds.map Prediction.t ∧
    (TidesSorted (tidesOfPredictions preds) ↔
      List.Pairwise (fun a b => a.t ≤ b.t) preds) := by
  constructor
  · simp only [tidesOfPredictions, List.map_map]
    rfl
  · simp only [TidesSorted, tidesOfPredictions, List.pairwise_map]
    exact Iff.rfl

/-- Counterexample to claim C3 as stated: two raw records arriving in
descending timestamp order produce a descending (not ascending) event
sequence — the adapter does not guarantee the ordering. -/
theorem c3_order_not_guaranteed :
    (tidesOfPredictions c3preds).map Tide.timestamp = [2000, 1000] ∧
    ¬ TidesSorted (tidesOfPredictions c3preds) := by decide

/-- Claim C4: for every tide event, the candidate viewing time computed by
the calculator is the timestamp plus exactly 2 hours when the kind is Low and
the timestamp plus exactly 3 hours when the kind is High. -/
theorem thunderCandidate_offsets (ts : Nat) :
    thunderCandidate { timestamp := ts, type := "Low" } = ts + 2 * 60 * 60 * 1000 ∧
    thunderCandidate { timestamp := ts, type := "High" } = ts + 3 * 60 * 60 * 1000 := by
  refine ⟨rfl, ?_⟩
  simp only [thunderCandidate]
  rw [if_neg (by decide)]

/-- Claim C5: whenever the sequence has no event strictly before `now`, or no
event strictly after `now`, the direction classifier returns `"Unknown"`. -/
theorem getCurrentTideDirection_unknown_without_both_sides
    (tides : List Tide) (now : Nat)
    (h : (∀ t ∈ tides, ¬ t.timestamp < now) ∨ (∀ t ∈ tides, ¬ now < t.timestamp)) :
    getCurrentTideDirection tides now = "Unknown" := by
  rcases h with h | h
  · simp only [getCurrentTideDirection]
    by_cases hl : (tides.filter fun t => decide (now < t.timestamp)).length < 2
    · rw [if_pos hl]
    · rw [if_neg hl]
      have hp : (tides.filter fun t => decide (t.timestamp < now)) = [] := by
        rw [List.filter_eq_nil_iff]
        intro a ha
        simp [h a ha]
      rw [hp]
      rfl
  · have hf : (tides.filter fun t => decide (now < t.timestamp)) = [] := by
      rw [List.filter_eq_nil_iff]
      intro a ha
      simp [h a ha]
    simp only [getCurrentTideDirection, hf]
    rfl

/-- Witness for claim C5 at a concrete input: `now` precedes every event, so
there is no past event and the classifier returns `"Unknown"`. -/
theorem getCurrentTideDirection_unknown_witness :
    getCurrentTideDirection
      [{ timestamp := 1000, type := "Low" }, { timestamp := 3000, type := "High" }] 500 =
      "Unknown" :=
  getCurrentTideDirection_unknown_without_both_sides
    [{ timestamp := 1000, type := "Low" }, { timestamp := 3000, type := "High" }] 500
    (Or.inl (by decide))

/-- Claim C6: for events [Low at 08:00, High at 14:00] on the current day
with `now` = 07:00 and the daylight window 06:00-19:30, the calculator returns
the candidate 10:00 (Low + 2 hours), whose related event is the Low at 08:00
and which lies 3 hours from `now`. -/
theorem c6_low_plus_two_hours :
    calculateThunderHoleTime c6now [c6low, c6high] = some (mkOptimalTime c6now c6low) ∧
    (mkOptimalTime c6now c6low).timestamp = day0 + 10 * msPerHour ∧
    (mkOptimalTime c6now c6low).relatedTide = c6low ∧
    (mkOptimalTime c6now c6low).hoursFromNow = 3 := by
  refine ⟨rfl, by decide, rfl, ?_⟩
  norm_num [mkOptimalTime, thunderCandidate, c6low, c6now, day0, msPerHour, msPerDay]

/-- Claim C7: the calculator is a total function (it always returns a value,
never an error); an event whose candidate falls outside the daylight window is
skipped and the scan proceeds with the remaining events, and when no event in
the sequence yields a qualifying candidate the result is the absent value
`none` rather than a failure or an extrapolation beyond the sequence. -/
theorem calculateThunderHoleTime_total_scan
    (now : Nat) (e : Tide) (rest tides : List Tide)
    (h1 : ¬ (sunriseOf now ≤ thunderCandidate e ∧ thunderCandidate e ≤ sunsetOf now))
    (h2 : ∀ t ∈ tides, ¬ (now < thunderCandidate t ∧
      sunriseOf now ≤ thunderCandidate t ∧ thunderCandidate t ≤ sunsetOf now)) :
    calculateThunderHoleTime now (e :: rest) = calculateThunderHoleTime now rest ∧
    calculateThunderHoleTime now tides = none := by
  constructor
  · simp only [calculateThunderHoleTime]
    rw [if_neg fun hc => h1 ⟨hc.2.1, hc.2.2⟩]
  · exact calculateThunderHoleTime_eq_none_of_none_qualify now tides h2

/-- Witness for claim C7 at a concrete input: an event whose candidate falls
after the sunset of the day of `now` is skipped, and a sequence with only such
events yields `none`. -/
theorem calculateThunderHoleTime_total_scan_witness :
    calculateThunderHoleTime 0 ({ timestamp := day0 + 18 * msPerHour, type := "Low" } :: []) =
      calculateThunderHoleTime 0 [] ∧
    calculateThunderHoleTime 0 [{ timestamp := day0 + 18 * msPerHour, type := "Low" }] = none := by
  have h := calculateThunderHoleTime_total_scan 0
    { timestamp := day0 + 18 * msPerHour, type := "Low" } []
    [{ timestamp := day0 + 18 * msPerHour, type := "Low" }]
    (by decide) (by decide)
  exact h

/-- Claim C8: the calculator is deterministic and side-effect-free — two
invocations on an unchanged sequence and unchanged `now` yield identical
results (in the embedding it is a pure function of exactly these two
arguments). -/
theorem calculateThunderHoleTime_deterministic
    (now₁ now₂ : Nat) (tides₁ tides₂ : List Tide)
    (hn : now₁ = now₂) (ht : tides₁ = tides₂) :
    calculateThunderHoleTime now₁ tides₁ = calculateThunderHoleTime now₂ tides₂ := by
  rw [hn, ht]

/-- Witness for claim C8 at a concrete input. -/
theorem calculateThunderHoleTime_deterministic_witness :
    calculateThunderHoleTime c6now [c6low, c6high] =
      calculateThunderHoleTime c6now [c6low, c6high] :=
  calculateThunderHoleTime_deterministic c6now c6now [c6low, c6high] [c6low, c6high] rfl rfl

/-- Claim C9: a failing fetch (non-success HTTP status, structured error
payload, or an exception thrown while fetching/parsing) leaves a previously
fetched dataset unchanged, clears the loading flag, and only sets the error
indicator; it never replaces or clears the displayed dataset. -/
theorem fetch_failure_preserves_dataset
    (s : AppState) (d : TideData) (outcome : FetchOutcome) (now : Nat)
    (hd : s.tideData = some d)
    (hfail : ∀ predictions, outcome ≠ FetchOutcome.ok predictions) :
    (fetchNOAATideData s outcome now).tideData = some d ∧
    (fetchNOAATideData s outcome now).loading = false ∧
    ∃ message, (fetchNOAATideData s outcome now).error = some message := by
  cases outcome with
  | ok predictions => exact absurd rfl (hfail predictions)
  | httpError status => exact ⟨hd, rfl, _, rfl⟩
  | apiError message => exact ⟨hd, rfl, _, rfl⟩
  | thrown message => exact ⟨hd, rfl, _, rfl⟩

/-- Witness for claim C9 at a concrete input: an HTTP failure with status 500
against a state holding a dataset. -/
theorem fetch_failure_preserves_dataset_witness :
    (fetchNOAATideData c9state (FetchOutcome.httpError 500) 0).tideData = some c9dataset ∧
    (fetchNOAATideData c9state (FetchOutcome.httpError 500) 0).loading = false ∧
    ∃ message, (fetchNOAATideData c9state (FetchOutcome.httpError 500) 0).error = some message :=
  fetch_failure_preserves_dataset c9state c9dataset (FetchOutcome.httpError 500) 0 rfl
    (fun _ h => FetchOutcome.noConfusion h)

/-- Claim C10 (amended): for every non-empty, chronologically ascending event
sequence, `nextTide` is the first event in sequence order with timestamp
strictly after `now` — under the ascending hypothesis, the earliest such
event — and when no future event exists it falls back to the first element of
the sequence; it always belongs to the sequence. -/
theorem nextTideOf_first_future_or_head
    (tides : List Tide) (now : Nat) (hne : tides ≠ []) (hsort : TidesSorted tides) :
    ∃ t, nextTideOf tides now = some t ∧ t ∈ tides ∧
      ((now < t.timestamp ∧ ∀ e ∈ tides, now < e.timestamp → t.timestamp ≤ e.timestamp) ∨
       ((∀ e ∈ tides, e.timestamp ≤ now) ∧ tides.head? = some t)) := by
  cases hf : tides.find? (fun tide => decide (now < tide.timestamp)) with
  | some t =>
    have hpa :=
      @List.find?_some Tide (fun tide => decide (now < tide.timestamp)) t tides hf
    refine ⟨t, ?_, List.mem_of_find?_eq_some hf,
      Or.inl ⟨of_decide_eq_true hpa, ?_⟩⟩
    · simp only [nextTideOf, hf]
    · intro e he hlt
      exact find?_min_of_sorted hsort hf e he (decide_eq_true hlt)
  | none =>
    obtain ⟨x, xs, rfl⟩ : ∃ x xs, tides = x :: xs := by
      cases tides with
      | nil => exact absurd rfl hne
      | cons x xs => exact ⟨x, xs, rfl⟩
    refine ⟨x, ?_, List.mem_cons_self x xs, Or.inr ⟨?_, rfl⟩⟩
    · simp only [nextTideOf, hf]
      rfl
    · intro e he
      have hne2 := List.find?_eq_none.mp hf e he
      simp only [decide_eq_true_eq] at hne2
      omega

/-- Witness for the amended claim C10 at a concrete input: a sorted two-event
sequence around `now = 2000`, whose next tide is the future High at 3000. -/
theorem nextTideOf_first_future_or_head_witness :
    ∃ t, nextTideOf [{ timestamp := 1000, type := "Low" },
        { timestamp := 3000, type := "High" }] 2000 = some t ∧
      t ∈ ([{ timestamp := 1000, type := "Low" },
        { timestamp := 3000, type := "High" }] : List Tide) ∧
      ((2000 < t.timestamp ∧ ∀ e ∈ ([{ timestamp := 1000, type := "Low" },
          { timestamp := 3000, type := "High" }] : List Tide),
          2000 < e.timestamp → t.timestamp ≤ e.timestamp) ∨
       ((∀ e ∈ ([{ timestamp := 1000, type := "Low" },
          { timestamp := 3000, type := "High" }] : List Tide), e.timestamp ≤ 2000) ∧
        ([{ timestamp := 1000, type := "Low" },
          { timestamp := 3000, type := "High" }] : List Tide).head? = some t)) :=
  nextTideOf_first_future_or_head
    [{ timestamp := 1000, type := "Low" }, { timestamp := 3000, type := "High" }] 2000
    (by decide) (by decide)

/-- Counterexample to claim C10 as stated: on an out-of-order sequence (which
the adapter can produce, see the C3 counterexample) the source returns the
first future event in list order (timestamp 5000), not the earliest future
event (timestamp 3000). -/
theorem c10_not_earliest_future :
    nextTideOf c10tides 1000 = some { timestamp := 5000, type := "High" } ∧
    ({ timestamp := 3000, type := "Low" } : Tide) ∈ c10tides ∧
    (1000 : Nat) < 3000 ∧ (3000 : Nat) < 5000 := by decide

end ThunderHole
